import Mathlib

/-!
Shallow embedding of the VtM scribe service (`app/services/pdf_service.py`,
`app/main.py`, `app/models.py`) and proofs about its field-mapping and
dot-rendering engine.
-/

namespace Scribe

/-- A Python value that may appear as a trait rating: an integer, a string,
or `None`.  Used to model the dynamic argument of the renderers. -/
inductive Value where
  | int (n : Int)
  | str (s : String)
  | none
deriving DecidableEq, Repr

/-- Accumulate decimal digits; fail on the first non-digit character. -/
def parseDigitsAux (acc : Nat) : List Char → Option Nat
  | [] => some acc
  | c :: cs =>
    if c.isDigit then parseDigitsAux (acc * 10 + (c.toNat - 48)) cs
    else Option.none

/-- A non-empty all-digit character run, as a number. -/
def parseDigits (cs : List Char) : Option Nat :=
  if cs.isEmpty then Option.none else parseDigitsAux 0 cs

/-- Strip leading and trailing whitespace. -/
def stripWs (l : List Char) : List Char :=
  ((l.dropWhile Char.isWhitespace).reverse.dropWhile Char.isWhitespace).reverse

/-- Python `int(string)`: optional surrounding whitespace, an optional
sign, then a non-empty digit run (digit-group underscores are not
modelled; no claim depends on them). -/
def pyIntStr (s : String) : Option Int :=
  match stripWs s.data with
  | '+' :: cs => (parseDigits cs).map (fun n => (n : Int))
  | '-' :: cs => (parseDigits cs).map (fun n => -(n : Int))
  | cs => (parseDigits cs).map (fun n => (n : Int))

/-- Python `int(value)` restricted to the rating value domain: succeeds on
integers (identity) and on strings holding an integer literal, fails
(`ValueError`/`TypeError`) on other strings and on `None`. -/
def pyInt : Value → Option Int
  | .int n => some n
  | .str s => pyIntStr s
  | .none => Option.none

/-- Embeds `_calculate_dots(start_index, value, block_size)` from `pdf_service.py`:
coerces `value` with `int()` (default 0 on failure), emits `block_size`
fields `dot{start_index+i}` active iff `i < min(val, block_size)`, then one
suffix field `dot{start_index+block_size-1}a` active iff `val > block_size`.
Activation `/Yes`/`/Off` is modelled as `true`/`false`. -/
def calculateDots (startIndex : Nat) (value : Value) (blockSize : Nat := 8) :
    List (String × Bool) :=
  let val : Int := (pyInt value).getD 0
  let normalLimit : Int := min val (blockSize : Int)
  ((List.range blockSize).map (fun (i : Nat) =>
    ("dot" ++ toString (startIndex + i), decide ((i : Int) < normalLimit))))
  ++ [("dot" ++ toString (startIndex + blockSize - 1) ++ "a",
       decide (val > (blockSize : Int)))]

/-- Embeds `_calculate_virtues(start_index, value)` from `pdf_service.py`: coerces
with `int()` (default 1 on failure), clamps with `val = min(val, 5)`, and
emits 5 fields `dot{start_index+i}` active iff `i < val`.  No suffix. -/
def calculateVirtues (startIndex : Nat) (value : Value) :
    List (String × Bool) :=
  let val : Int := min ((pyInt value).getD 1) 5
  (List.range 5).map (fun (i : Nat) =>
    ("dot" ++ toString (startIndex + i), decide ((i : Int) < val)))

/-- Embeds `_calculate_tracker(prefix, value, max_slots)` from `pdf_service.py`:
coerces with `int()` (default 0 on failure) and emits fields
`{prefix}{i}` for `i` in `1..max_slots`, active iff `i <= val`. -/
def calculateTracker (pfx : String) (value : Value) (maxSlots : Nat := 10) :
    List (String × Bool) :=
  let val : Int := (pyInt value).getD 0
  (List.range maxSlots).map (fun (j : Nat) =>
    (pfx ++ toString (j + 1), decide (((j : Int) + 1) ≤ val)))

/-- One step of the stable descending sort: place `p` before the first
element whose rating is `≤ p`'s (Python `sorted(..., key=rating,
reverse=True)` is stable, so among equal ratings earlier input stays
first). -/
def insertDesc (p : String × Int) : List (String × Int) → List (String × Int)
  | [] => [p]
  | q :: l => if q.2 ≤ p.2 then p :: q :: l else q :: insertDesc p l

/-- Embeds `sorted(d.items(), key=lambda x: x[1], reverse=True)`: a stable sort of
the insertion-ordered entries, descending by rating. -/
def sortedDesc : List (String × Int) → List (String × Int)
  | [] => []
  | p :: l => insertDesc p (sortedDesc l)

/-- Python `str.title()` restricted to the alphabetic/ASCII trait names the
service handles: an alphabetic character is uppercased when the previous
character is not alphabetic, lowercased otherwise. -/
def pyTitleAux : Bool → List Char → List Char
  | _, [] => []
  | prevAlpha, c :: cs =>
    if c.isAlpha then
      (if prevAlpha then c.toLower else c.toUpper) :: pyTitleAux true cs
    else
      c :: pyTitleAux false cs

/-- Embeds `name.title().replace('_', ' ')` as used for overflow lines and slot
labels. -/
def titleSpaced (name : String) : String :=
  String.mk ((pyTitleAux false name.data).map (fun c =>
    if c = '_' then ' ' else c))

/-- Embeds the line format `"<title cased name>: <rating>"` — one overflow text
line. -/
def formatLine (p : String × Int) : String :=
  titleSpaced p.1 ++ ": " ++ toString p.2

/-- The `other_lines` list built in `generate_character_stream` from the
overflow disciplines and overflow backgrounds (entries past the first 6 of
each sorted list). -/
def otherLines (overflowDisciplines overflowBackgrounds : List (String × Int)) :
    List String :=
  ["OTHER TRAITS", ""]
  ++ (if overflowDisciplines.isEmpty then []
      else "--- Additional Disciplines ---" ::
        overflowDisciplines.map formatLine ++ [""])
  ++ (if overflowBackgrounds.isEmpty then []
      else "--- Additional Backgrounds ---" ::
        overflowBackgrounds.map formatLine ++ [""])

/-- Embeds the misc assignments: `for i, line in enumerate(other_lines):
if i < 13: form_fields[f"misc{i+1}"] = line`. -/
def miscFields (lines : List String) : List (String × String) :=
  ((lines.enum.filter (fun p => p.1 < 13)).map (fun p =>
    ("misc" ++ toString (p.1 + 1), p.2)))

/-- A reference-shaped value (`clan`, `nature`, `demeanor`, `concept`) as it
reaches `generate_character_stream`: the key absent from the dict, the key
present with the Python value `None` (what `model_dump` produces for a
request that omits the field, since `models.py` declares
`Optional[ReferenceData] = None`), a plain string, or a structured dict
whose `name`/`weakness` entries may themselves be absent. -/
inductive RefField where
  | absent
  | none
  | str (s : String)
  | ref (name : Option String) (weakness : Option String)
deriving DecidableEq, Repr

/-- Embeds `char_data.get(k, {}).get("name", "") if isinstance(char_data.get(k),
dict) else str(char_data.get(k, ""))` — the display text the assembler puts
in a reference text field.  A present `None` value is not a dict, and the
`get` default does not fire for a present key, so the else branch computes
`str(None)`, the literal string `"None"`. -/
def resolveName : RefField → String
  | .ref n _ => n.getD ""
  | .str s => s
  | .none => "None"
  | .absent => ""

/-- Embeds `char_data.get("clan", {}).get("weakness", "") if
isinstance(char_data.get("clan"), dict) else ""`. -/
def resolveWeakness : RefField → String
  | .ref _ w => w.getD ""
  | _ => ""

/-- The character record as the dict consumed by
`generate_character_stream`.  Fields model the dict's keys: `Option.none`
and `RefField.absent` mean the key is absent (the service function accepts
any dict).  What `main.py` actually passes is `character.model_dump()`,
which materialises every declared key — a reference field omitted from the
request then arrives as a present Python `None` (`RefField.none`), not as
an absent key.  Trait mappings are insertion-ordered association lists. -/
structure Record where
  name : Option String := Option.none
  player : Option String := Option.none
  chronicle : Option String := Option.none
  sire : Option String := Option.none
  nature : RefField := .absent
  demeanor : RefField := .absent
  concept : RefField := .absent
  clan : RefField := .absent
  generation : Option Int := Option.none
  bloodPointsPerTurn : Option Int := Option.none
  spentExperience : Option Int := Option.none
  totalExperience : Option Int := Option.none
  attributes : List (String × Value) := []
  abilities : List (String × Value) := []
  disciplines : List (String × Int) := []
  backgrounds : List (String × Int) := []
  virtues : List (String × Value) := []
  humanity : Option Value := Option.none
  willpower : Option Value := Option.none

/-- A value written into the form-field mapping: a checkbox activation
(`/Yes`-vs-`/Off` `NameObject`) or literal text. -/
inductive FieldVal where
  | check (b : Bool)
  | text (s : String)
deriving DecidableEq, Repr

/-- Lift a dot-renderer result into checkbox field writes. -/
def checks (l : List (String × Bool)) : List (String × FieldVal) :=
  l.map (fun p => (p.1, .check p.2))

/-- The `text_mapping` dict of `generate_character_stream`, in source
order. -/
def textMapping (rec : Record) : List (String × String) :=
  [("name", rec.name.getD ""),
   ("player", rec.player.getD ""),
   ("chronicle", rec.chronicle.getD ""),
   ("nature", resolveName rec.nature),
   ("demeanor", resolveName rec.demeanor),
   ("concept", resolveName rec.concept),
   ("Clan", resolveName rec.clan),
   ("gen", match rec.generation with
           | some g => toString g
           | Option.none => ""),
   ("sire", rec.sire.getD ""),
   ("ppt", match rec.bloodPointsPerTurn with
           | some b => toString b
           | Option.none => ""),
   ("weakness", resolveWeakness rec.clan),
   ("experience",
     toString (rec.spentExperience.getD 0) ++ "/"
       ++ toString (rec.totalExperience.getD 0)),
   ("misctitle", " ")]

/-- The fixed attribute order of the assembler (`attr_order`). -/
def attrOrder : List String :=
  ["strength", "dexterity", "stamina",
   "charisma", "manipulation", "appearance",
   "perception", "intelligence", "wits"]

/-- The fixed ability order of the assembler (`ability_order`). -/
def abilityOrder : List String :=
  ["alertness", "athletics", "awareness", "brawl", "empathy",
   "expression", "intimidation", "leadership", "streetwise", "subterfuge",
   "animal_ken", "crafts", "drive", "etiquette", "firearms",
   "larceny", "melee", "performance", "stealth", "survival",
   "academics", "computer", "finance", "investigation", "law",
   "medicine", "occult", "politics", "science", "technology"]

/-- Embeds `for i, name in enumerate(order): ... _calculate_dots(base + i*8,
mapping.get(name, dflt))` — the dot blocks of a canonical trait list. -/
def orderedDots (mapping : List (String × Value)) (dflt : Value)
    (base : Nat) : List String → Nat → List (String × FieldVal)
  | [], _ => []
  | nm :: rest, i =>
    checks (calculateDots (base + i * 8) ((mapping.lookup nm).getD dflt) 8)
      ++ orderedDots mapping dflt base rest (i + 1)

/-- The main-slot loop for disciplines: per slot a label field
`disciplines{i+1}` holding the title-cased name, then the dot block at
`313 + i*8`. -/
def discSlots : List (String × Int) → Nat → List (String × FieldVal)
  | [], _ => []
  | (nm, v) :: rest, i =>
    ("disciplines" ++ toString (i + 1), .text (titleSpaced nm))
      :: (checks (calculateDots (313 + i * 8) (.int v) 8)
          ++ discSlots rest (i + 1))

/-- The main-slot loop for backgrounds: label `back{i+1}`, dot block at
`361 + i*8`. -/
def backSlots : List (String × Int) → Nat → List (String × FieldVal)
  | [], _ => []
  | (nm, v) :: rest, i =>
    ("back" ++ toString (i + 1), .text (titleSpaced nm))
      :: (checks (calculateDots (361 + i * 8) (.int v) 8)
          ++ backSlots rest (i + 1))

/-- The `form_fields` mapping assembled by `generate_character_stream`, as
the ordered list of writes (each key is written once; see the disjointness
theorem). -/
def fieldMap (rec : Record) : List (String × FieldVal) :=
  let sortedDiscs := sortedDesc rec.disciplines
  let sortedBacks := sortedDesc rec.backgrounds
  (miscFields (otherLines (sortedDiscs.drop 6) (sortedBacks.drop 6))).map
      (fun p => (p.1, FieldVal.text p.2))
  ++ (textMapping rec).map (fun p => (p.1, FieldVal.text p.2))
  ++ orderedDots rec.attributes (.int 1) 1 attrOrder 0
  ++ orderedDots rec.abilities (.int 0) 73 abilityOrder 0
  ++ discSlots (sortedDiscs.take 6) 0
  ++ backSlots (sortedBacks.take 6) 0
  ++ checks (calculateVirtues 409 ((rec.virtues.lookup "conscience").getD (.int 1)))
  ++ checks (calculateVirtues 414 ((rec.virtues.lookup "self_control").getD (.int 1)))
  ++ checks (calculateVirtues 419 ((rec.virtues.lookup "courage").getD (.int 1)))
  ++ checks (calculateTracker "hdot" (rec.humanity.getD (.int 7)) 10)
  ++ checks (calculateTracker "willdot" (rec.willpower.getD (.int 6)) 10)

/-- Filename construction in `app/main.py`: `safe_name = name.replace(" ",
"_") if character.name else "Character"; filename =
f"{safe_name}_Sheet.pdf"`. -/
def filenameOf (name : String) : String :=
  (if name ≠ "" then (String.mk (name.data.map (fun c =>
      if c = ' ' then '_' else c)))
   else "Character") ++ "_Sheet.pdf"

/-- The name field after request validation (`models.py`):
`name: str = Field(default="Unknown Kindred")` — an absent name becomes
`"Unknown Kindred"` before the handler runs. -/
def validatedName (requestName : Option String) : String :=
  requestName.getD "Unknown Kindred"

/-- End-to-end download filename for a request whose `name` field is
`requestName` (absent = `Option.none`). -/
def requestFilename (requestName : Option String) : String :=
  filenameOf (validatedName requestName)

/-- The clan value after request validation and `model_dump` (`models.py`:
`clan: Optional[ReferenceData] = None`): an absent clan becomes the Python
value `None` under a present key; a provided clan becomes the dump of a
`ReferenceData` (id/name/description — it never carries a `weakness`
key). -/
def validatedClan (requestClan : Option String) : RefField :=
  match requestClan with
  | some nm => .ref (some nm) Option.none
  | Option.none => .none

/-- An injective-on-our-keys numeric fingerprint of a string (base-1114112
expansion of its characters).  Only `Nodup (map strCode l) → Nodup l` is
used, which holds for any function. -/
def strCode (s : String) : Nat :=
  s.data.foldl (fun a c => a * 1114112 + c.toNat) 1

/-- Insertion step of a structural insertion sort on `Nat` (kept
kernel-reducible, unlike `List.mergeSort`). -/
def insNat (a : Nat) : List Nat → List Nat
  | [] => [a]
  | b :: l => if a ≤ b then a :: b :: l else b :: insNat a l

/-- Structural insertion sort on `Nat`. -/
def sortNat : List Nat → List Nat
  | [] => []
  | a :: l => insNat a (sortNat l)

/-- Boolean check that a list is strictly ascending. -/
def strictAsc : List Nat → Bool
  | [] => true
  | [_] => true
  | a :: b :: l => a < b && strictAsc (b :: l)

/-- The field names emitted by one dot block. -/
def dotKeys (s b : Nat) : List String :=
  (List.range b).map (fun i => "dot" ++ toString (s + i))
    ++ ["dot" ++ toString (s + b - 1) ++ "a"]

/-- The field names emitted by a tracker. -/
def trackKeys (pfx : String) (n : Nat) : List String :=
  (List.range n).map (fun j => pfx ++ toString (j + 1))

/-- Field names of a canonical ordered run of dot blocks. -/
def orderKeys (base : Nat) : List String → Nat → List String
  | [], _ => []
  | _ :: rest, i => dotKeys (base + i * 8) 8 ++ orderKeys base rest (i + 1)

/-- Field names of the main-slot loop: a label then a dot block per slot;
depends only on how many slots are filled. -/
def slotKeys (label : String) (base : Nat) : Nat → Nat → List String
  | 0, _ => []
  | n + 1, i =>
    (label ++ toString (i + 1))
      :: (dotKeys (base + i * 8) 8 ++ slotKeys label base n (i + 1))

/-- The key list of the text mapping (independent of the record). -/
def textKeys : List String :=
  ["name", "player", "chronicle", "nature", "demeanor", "concept", "Clan",
   "gen", "sire", "ppt", "weakness", "experience", "misctitle"]

/-- The complete field-key list as a function of the three record-dependent
sizes: the overflow line count `m`, the number of filled discipline slots
`d` and the number of filled background slots `b`. -/
def keysParam (m d b : Nat) : List String :=
  (List.range (min 13 m)).map (fun i => "misc" ++ toString (i + 1))
  ++ textKeys
  ++ orderKeys 1 attrOrder 0
  ++ orderKeys 73 abilityOrder 0
  ++ slotKeys "disciplines" 313 d 0
  ++ slotKeys "back" 361 b 0
  ++ (List.range 5).map (fun i => "dot" ++ toString (409 + i))
  ++ (List.range 5).map (fun i => "dot" ++ toString (414 + i))
  ++ (List.range 5).map (fun i => "dot" ++ toString (419 + i))
  ++ trackKeys "hdot" 10
  ++ trackKeys "willdot" 10

/-- The key lists of the assembler's sub-mappings, one per assembly step,
in write order. -/
def fieldSegKeys (rec : Record) : List (List String) :=
  [(miscFields (otherLines ((sortedDesc rec.disciplines).drop 6)
      ((sortedDesc rec.backgrounds).drop 6))).map Prod.fst,
   (textMapping rec).map Prod.fst,
   (orderedDots rec.attributes (.int 1) 1 attrOrder 0).map Prod.fst,
   (orderedDots rec.abilities (.int 0) 73 abilityOrder 0).map Prod.fst,
   (discSlots ((sortedDesc rec.disciplines).take 6) 0).map Prod.fst,
   (backSlots ((sortedDesc rec.backgrounds).take 6) 0).map Prod.fst,
   (calculateVirtues 409 ((rec.virtues.lookup "conscience").getD (.int 1))).map Prod.fst,
   (calculateVirtues 414 ((rec.virtues.lookup "self_control").getD (.int 1))).map Prod.fst,
   (calculateVirtues 419 ((rec.virtues.lookup "courage").getD (.int 1))).map Prod.fst,
   (calculateTracker "hdot" (rec.humanity.getD (.int 7)) 10).map Prod.fst,
   (calculateTracker "willdot" (rec.willpower.getD (.int 6)) 10).map Prod.fst]

/-- The disciplines mapping of the end-to-end example in the spec, in
insertion order. -/
def demoDisciplines : List (String × Int) :=
  [("celerity", 2), ("potence", 3), ("fortitude", 1), ("obfuscate", 1),
   ("dominate", 1), ("auspex", 1), ("thaumaturgy", 1)]

/-! ## Helper lemmas -/

theorem countP_range_lt (k n : Nat) :
    (List.range n).countP (fun i => decide (i < k)) = min k n := by
  induction n with
  | zero => simp
  | succ n ih =>
    rw [List.range_succ, List.countP_append, ih]
    by_cases h : n < k <;> simp [List.countP_cons, h] <;> omega

theorem calculateDots_eq (r : Int) (s b : Nat) :
    calculateDots s (.int r) b
      = (List.range b).map (fun i =>
          ("dot" ++ toString (s + i), decide ((i : Int) < min r (b : Int))))
        ++ [("dot" ++ toString (s + b - 1) ++ "a", decide ((b : Int) < r))] := by
  simp [calculateDots, pyInt]

theorem insertDesc_perm (p : String × Int) (l : List (String × Int)) :
    List.Perm (insertDesc p l) (p :: l) := by
  induction l with
  | nil => exact List.Perm.refl _
  | cons q m ih =>
    by_cases hb : q.2 ≤ p.2
    · simp [insertDesc, hb]
    · simp only [insertDesc, if_neg hb]
      exact (ih.cons q).trans (List.Perm.swap p q m)

theorem sortedDesc_perm (l : List (String × Int)) :
    List.Perm (sortedDesc l) l := by
  induction l with
  | nil => exact List.Perm.refl _
  | cons p m ih => exact (insertDesc_perm p (sortedDesc m)).trans (ih.cons p)

theorem insertDesc_pairwise {p : String × Int} {l : List (String × Int)}
    (h : l.Pairwise (fun a b => b.2 ≤ a.2)) :
    (insertDesc p l).Pairwise (fun a b => b.2 ≤ a.2) := by
  induction l with
  | nil => simp [insertDesc]
  | cons q m ih =>
    rw [List.pairwise_cons] at h
    by_cases hb : q.2 ≤ p.2
    · simp only [insertDesc, if_pos hb]
      refine List.pairwise_cons.mpr ⟨?_, List.pairwise_cons.mpr ⟨h.1, h.2⟩⟩
      intro x hx
      rcases List.mem_cons.mp hx with hx | hx
      · exact hx ▸ hb
      · exact le_trans (h.1 x hx) hb
    · simp only [insertDesc, if_neg hb]
      refine List.pairwise_cons.mpr ⟨?_, ih h.2⟩
      intro x hx
      have hx' : x ∈ p :: m := (insertDesc_perm p m).mem_iff.mp hx
      rcases List.mem_cons.mp hx' with hx' | hx'
      · exact hx' ▸ le_of_not_le hb
      · exact h.1 x hx'

theorem sortedDesc_pairwise (l : List (String × Int)) :
    (sortedDesc l).Pairwise (fun a b => b.2 ≤ a.2) := by
  induction l with
  | nil => simp [sortedDesc]
  | cons p m ih => exact insertDesc_pairwise ih

theorem insertDesc_filter_neg {p : String × Int} {r : Int} (hp : p.2 ≠ r)
    (l : List (String × Int)) :
    (insertDesc p l).filter (fun q => decide (q.2 = r))
      = l.filter (fun q => decide (q.2 = r)) := by
  induction l with
  | nil => simp [insertDesc, hp]
  | cons q m ih =>
    by_cases hb : q.2 ≤ p.2
    · simp [insertDesc, hb, List.filter_cons, hp]
    · simp only [insertDesc, if_neg hb, List.filter_cons]
      rw [ih]

theorem insertDesc_filter_pos {p : String × Int} {r : Int} (hp : p.2 = r)
    (l : List (String × Int)) :
    (insertDesc p l).filter (fun q => decide (q.2 = r))
      = p :: l.filter (fun q => decide (q.2 = r)) := by
  induction l with
  | nil => simp [insertDesc, hp]
  | cons q m ih =>
    by_cases hb : q.2 ≤ p.2
    · simp only [insertDesc, if_pos hb, List.filter_cons]
      simp [hp]
    · have hq : q.2 ≠ r := by
        intro he
        exact hb (by omega)
      simp only [insertDesc, if_neg hb, List.filter_cons]
      rw [ih]
      simp [hq]

theorem sortedDesc_filter (l : List (String × Int)) (r : Int) :
    (sortedDesc l).filter (fun q => decide (q.2 = r))
      = l.filter (fun q => decide (q.2 = r)) := by
  induction l with
  | nil => rfl
  | cons p m ih =>
    by_cases hp : p.2 = r
    · rw [sortedDesc, insertDesc_filter_pos hp, ih, List.filter_cons,
        if_pos (by simpa using hp)]
    · rw [sortedDesc, insertDesc_filter_neg hp, ih, List.filter_cons,
        if_neg (by simpa using hp)]

theorem enumFrom_filter_lt {α : Type} (k : Nat) :
    ∀ (n : Nat) (l : List α),
    (List.enumFrom n l).filter (fun p => decide (p.1 < k))
      = List.enumFrom n (l.take (k - n))
  | n, [] => by simp
  | n, a :: l => by
    rw [List.enumFrom_cons, List.filter_cons, enumFrom_filter_lt k (n + 1) l]
    by_cases h : n < k
    · have hk : k - n = (k - (n + 1)) + 1 := by omega
      rw [hk, List.take_succ_cons, List.enumFrom_cons]
      simp [h]
    · have hk : k - n = 0 := by omega
      have hk' : k - (n + 1) = 0 := by omega
      rw [hk, hk']
      simp [h]

theorem miscFields_eq (lines : List String) :
    miscFields lines
      = ((lines.take 13).enum).map
          (fun q => ("misc" ++ toString (q.1 + 1), q.2)) := by
  unfold miscFields
  rw [List.enum, enumFrom_filter_lt, Nat.sub_zero, ← List.enum]

theorem miscFields_keys (lines : List String) :
    (miscFields lines).map Prod.fst
      = (List.range (min 13 lines.length)).map
          (fun i => "misc" ++ toString (i + 1)) := by
  rw [miscFields_eq, List.map_map]
  have h : (Prod.fst ∘ fun q : Nat × String =>
      ("misc" ++ toString (q.1 + 1), q.2))
      = (fun i => "misc" ++ toString (i + 1)) ∘ Prod.fst := by
    funext q
    rfl
  rw [h, ← List.map_map, List.enum_map_fst, List.length_take]

/-! ## Duplicate-freedom machinery: check key lists through numeric codes -/

theorem sortNat_perm (l : List Nat) : List.Perm (sortNat l) l := by
  induction l with
  | nil => exact List.Perm.refl _
  | cons a l ih =>
    have h : ∀ (x : Nat) (m : List Nat), List.Perm (insNat x m) (x :: m) := by
      intro x m
      induction m with
      | nil => exact List.Perm.refl _
      | cons b m ihm =>
        by_cases hb : x ≤ b
        · simp [insNat, hb]
        · simp only [insNat, if_neg hb]
          exact (ihm.cons b).trans (List.Perm.swap x b m)
    exact (h a (sortNat l)).trans (ih.cons a)

theorem strictAsc_chain :
    ∀ {l : List Nat}, strictAsc l = true → l.Chain' (· < ·)
  | [], _ => List.chain'_nil
  | [_], _ => List.chain'_singleton _
  | _ :: _ :: _, h => by
    simp only [strictAsc, Bool.and_eq_true, decide_eq_true_eq] at h
    exact List.Chain'.cons h.1 (strictAsc_chain h.2)

/-- If the sorted numeric codes of a string list are strictly ascending,
the string list has no duplicates. -/
theorem nodup_of_code (l : List String)
    (h : strictAsc (sortNat (l.map strCode)) = true) : l.Nodup := by
  have hp : (sortNat (l.map strCode)).Pairwise (· < ·) :=
    List.chain'_iff_pairwise.mp (strictAsc_chain h)
  have h2 : (l.map strCode).Nodup :=
    (sortNat_perm _).nodup_iff.mp (hp.imp Nat.ne_of_lt)
  exact h2.of_map _

/-! ## Field-key inventories -/

theorem checks_keys (l : List (String × Bool)) :
    (checks l).map Prod.fst = l.map Prod.fst := by
  simp [checks]

theorem textWrites_keys (l : List (String × String)) :
    ((l.map (fun p => (p.1, FieldVal.text p.2))).map Prod.fst)
      = l.map Prod.fst := by
  simp

theorem calculateDots_keys (s b : Nat) (v : Value) :
    (calculateDots s v b).map Prod.fst = dotKeys s b := by
  simp [calculateDots, dotKeys]

theorem calculateVirtues_keys (s : Nat) (v : Value) :
    (calculateVirtues s v).map Prod.fst
      = (List.range 5).map (fun i => "dot" ++ toString (s + i)) := by
  simp [calculateVirtues]

theorem calculateTracker_keys (pfx : String) (v : Value) (n : Nat) :
    (calculateTracker pfx v n).map Prod.fst = trackKeys pfx n := by
  simp only [calculateTracker, trackKeys, List.map_map]
  rfl

theorem orderedDots_keys (m : List (String × Value)) (d : Value) (base : Nat) :
    ∀ (order : List String) (i : Nat),
    (orderedDots m d base order i).map Prod.fst = orderKeys base order i
  | [], _ => rfl
  | nm :: rest, i => by
    rw [orderedDots, orderKeys, List.map_append, checks_keys,
      calculateDots_keys, orderedDots_keys m d base rest (i + 1)]

theorem discSlots_keys :
    ∀ (l : List (String × Int)) (i : Nat),
    (discSlots l i).map Prod.fst = slotKeys "disciplines" 313 l.length i
  | [], _ => rfl
  | (nm, v) :: rest, i => by
    rw [discSlots, List.length_cons, slotKeys, List.map_cons, List.map_append,
      checks_keys, calculateDots_keys, discSlots_keys rest (i + 1)]

theorem backSlots_keys :
    ∀ (l : List (String × Int)) (i : Nat),
    (backSlots l i).map Prod.fst = slotKeys "back" 361 l.length i
  | [], _ => rfl
  | (nm, v) :: rest, i => by
    rw [backSlots, List.length_cons, slotKeys, List.map_cons, List.map_append,
      checks_keys, calculateDots_keys, backSlots_keys rest (i + 1)]

theorem textMapping_keys (rec : Record) :
    (textMapping rec).map Prod.fst = textKeys := rfl

theorem fieldMap_keys_flatten (rec : Record) :
    (fieldMap rec).map Prod.fst = (fieldSegKeys rec).flatten := by
  simp only [fieldMap, fieldSegKeys, List.flatten, List.map_append,
    textWrites_keys, checks_keys, List.append_nil, List.append_assoc]

theorem fieldMap_keys_param (rec : Record) :
    (fieldMap rec).map Prod.fst
      = keysParam
          (otherLines ((sortedDesc rec.disciplines).drop 6)
            ((sortedDesc rec.backgrounds).drop 6)).length
          (min 6 (sortedDesc rec.disciplines).length)
          (min 6 (sortedDesc rec.backgrounds).length) := by
  simp only [fieldMap, keysParam, List.map_append, textWrites_keys,
    textMapping_keys, checks_keys, calculateDots_keys, calculateVirtues_keys,
    calculateTracker_keys, orderedDots_keys, discSlots_keys, backSlots_keys,
    miscFields_keys, List.length_take, List.append_assoc]

theorem slotKeys_mono (label : String) (base : Nat) :
    ∀ (d₁ d₂ i : Nat), d₁ ≤ d₂ →
    slotKeys label base d₁ i <+: slotKeys label base d₂ i
  | 0, _, _, _ => List.nil_prefix
  | _ + 1, 0, _, h => absurd h (by omega)
  | d₁ + 1, d₂ + 1, i, h => by
    rw [slotKeys, slotKeys]
    refine List.cons_prefix_cons.mpr ⟨rfl, ?_⟩
    exact ( List.prefix_append_right_inj _).mpr
      (slotKeys_mono label base d₁ d₂ (i + 1) (by omega))

theorem keysParam_sublist (m d b : Nat) (hd : d ≤ 6) (hb : b ≤ 6) :
    (keysParam m d b).Sublist (keysParam 13 6 6) := by
  unfold keysParam
  refine List.Sublist.append ?_ (List.Sublist.refl _)
  refine List.Sublist.append ?_ (List.Sublist.refl _)
  refine List.Sublist.append ?_ (List.Sublist.refl _)
  refine List.Sublist.append ?_ (List.Sublist.refl _)
  refine List.Sublist.append ?_ (List.Sublist.refl _)
  refine List.Sublist.append ?_ ((slotKeys_mono "back" 361 b 6 0 hb).sublist)
  refine List.Sublist.append ?_
    ((slotKeys_mono "disciplines" 313 d 6 0 hd).sublist)
  refine List.Sublist.append ?_ (List.Sublist.refl _)
  refine List.Sublist.append ?_ (List.Sublist.refl _)
  refine List.Sublist.append ?_ (List.Sublist.refl _)
  exact List.Sublist.map _ (List.range_sublist.mpr (by omega))

set_option maxRecDepth 40000 in
theorem keysMax_nodup : (keysParam 13 6 6).Nodup :=
  nodup_of_code _ (by rfl)

/-! ## Dot-block access lemmas -/

theorem dots_getD (r : Int) (s b : Nat) {i : Nat} (hi : i < b) :
    (calculateDots s (.int r) b).getD i ("", false)
      = ("dot" ++ toString (s + i), decide ((i : Int) < min r (b : Int))) := by
  rw [calculateDots_eq]
  rw [List.getD_append _ _ _ i (by simpa using hi)]
  rw [List.getD_eq_getElem?_getD, List.getElem?_map, List.getElem?_range hi]
  rfl

theorem dots_countP (r : Int) (s b : Nat) :
    ((calculateDots s (.int r) b).take b).countP Prod.snd
      = (min (max r 0) (b : Int)).toNat := by
  rw [calculateDots_eq, List.take_left' (by simp), List.countP_map]
  have h : (Prod.snd ∘ (fun (i : Nat) =>
      ("dot" ++ toString (s + i), decide ((i : Int) < min r (b : Int)))))
      = fun (i : Nat) => decide (i < (min (max r 0) (b : Int)).toNat) := by
    funext i
    simp only [Function.comp_apply, decide_eq_decide]
    omega
  rw [h, countP_range_lt]
  omega

theorem virt_getD (r : Int) (s : Nat) {i : Nat} (hi : i < 5) :
    (calculateVirtues s (.int r)).getD i ("", false)
      = ("dot" ++ toString (s + i), decide ((i : Int) < min r 5)) := by
  simp only [calculateVirtues, pyInt, Option.getD_some]
  rw [List.getD_eq_getElem?_getD, List.getElem?_map, List.getElem?_range hi]
  rfl

theorem virt_countP (r : Int) (s : Nat) :
    (calculateVirtues s (.int r)).countP Prod.snd
      = (min (max r 0) 5).toNat := by
  simp only [calculateVirtues, pyInt, Option.getD_some]
  rw [List.countP_map]
  have h : (Prod.snd ∘ (fun (i : Nat) =>
      ("dot" ++ toString (s + i), decide ((i : Int) < min r 5))))
      = fun (i : Nat) => decide (i < (min (max r 0) 5).toNat) := by
    funext i
    simp only [Function.comp_apply, decide_eq_decide]
    omega
  rw [h, countP_range_lt]
  omega

theorem tracker_getD (pfx : String) (r : Int) (n : Nat) {j : Nat}
    (hj : j < n) :
    (calculateTracker pfx (.int r) n).getD j ("", false)
      = (pfx ++ toString (j + 1), decide (((j : Int) + 1) ≤ r)) := by
  simp only [calculateTracker, pyInt, Option.getD_some]
  rw [List.getD_eq_getElem?_getD, List.getElem?_map, List.getElem?_range hj]
  rfl

/-! ## Claim theorems -/

/-- C1: for every integer rating `r` and block size 8, `_calculate_dots`
produces exactly 8 boolean dot fields named `dot(start+i)` for `i < 8`,
field `i` active iff `i < min(r, 8)` (so exactly `min(max(r,0),8)` active
fields, a contiguous prefix), plus exactly one trailing overflow-suffix
field `dot(start+7)a` active iff `r > 8`. -/
theorem c1_dot_block_contract (r : Int) (s : Nat) :
    (calculateDots s (.int r) 8).length = 9
  ∧ (∀ i : Nat, i < 8 →
      (calculateDots s (.int r) 8).getD i ("", false)
        = ("dot" ++ toString (s + i), decide ((i : Int) < min r 8)))
  ∧ ((calculateDots s (.int r) 8).take 8).countP Prod.snd
      = (min (max r 0) 8).toNat
  ∧ (∀ i j : Nat, i ≤ j → j < 8 →
      ((calculateDots s (.int r) 8).getD j ("", false)).2 = true →
      ((calculateDots s (.int r) 8).getD i ("", false)).2 = true)
  ∧ (calculateDots s (.int r) 8).getLast?
      = some ("dot" ++ toString (s + 7) ++ "a", decide (r > 8)) := by
  refine ⟨?_, ?_, dots_countP r s 8, ?_, ?_⟩
  · rw [calculateDots_eq]
    simp
  · intro i hi
    exact dots_getD r s 8 hi
  · intro i j hij hj hact
    rw [dots_getD r s 8 hj] at hact
    rw [dots_getD r s 8 (lt_of_le_of_lt hij hj)]
    simp at hact ⊢
    omega
  · rw [calculateDots_eq]
    have h7 : s + 8 - 1 = s + 7 := by omega
    rw [h7, List.getLast?_concat]
    norm_num

/-- Witness for C1 at `r = 9`, `s = 313`: the third dot field of the block
is `dot315`, active. -/
theorem c1_dot_block_contract_witness :
    (calculateDots 313 (Value.int 9) 8).getD 2 ("", false) = ("dot315", true) :=
  ((c1_dot_block_contract 9 313).2.1 2 (by omega)).trans (by decide)

/-- C2: the three renderers are total over integer, string, and `None`
ratings (always yielding their full field lists — never raising), and any
rating on which integer coercion fails (non-numeric string, `None`)
behaves as the documented default: 0 for `_calculate_dots`, 1 for
`_calculate_virtues`, 0 for `_calculate_tracker`. -/
theorem c2_renderers_total_and_default (s b n : Nat) (pfx : String)
    (v : Value) :
    (calculateDots s v b).length = b + 1
  ∧ (calculateVirtues s v).length = 5
  ∧ (calculateTracker pfx v n).length = n
  ∧ (pyInt v = Option.none →
      calculateDots s v b = calculateDots s (.int 0) b
      ∧ calculateVirtues s v = calculateVirtues s (.int 1)
      ∧ calculateTracker pfx v n = calculateTracker pfx (.int 0) n) := by
  refine ⟨by simp [calculateDots], by simp [calculateVirtues],
    by simp [calculateTracker], ?_⟩
  intro h
  refine ⟨?_, ?_, ?_⟩
  · unfold calculateDots
    rw [h]
    rfl
  · unfold calculateVirtues
    rw [h]
    rfl
  · unfold calculateTracker
    rw [h]
    rfl

/-- Witness for C2 at the non-numeric string rating `"bad"` and at
`None`. -/
theorem c2_renderers_total_and_default_witness :
    calculateVirtues 409 (Value.str "bad") = calculateVirtues 409 (Value.int 1)
  ∧ calculateDots 1 Value.none 8 = calculateDots 1 (Value.int 0) 8 :=
  ⟨((c2_renderers_total_and_default 409 8 10 "hdot"
      (Value.str "bad")).2.2.2 (by rfl)).2.1,
   ((c2_renderers_total_and_default 1 8 10 "hdot"
      Value.none).2.2.2 (by rfl)).1⟩

/-- C6: the virtue renderer (block size 5) activates exactly
`min(max(r,0),5)` of its 5 dot fields as a contiguous prefix, never
produces an overflow-suffix field (its keys are always the 5 plain dot
names), and a rating on which coercion fails defaults to 1. -/
theorem c6_virtue_block_contract (r : Int) (s : Nat) :
    (calculateVirtues s (.int r)).length = 5
  ∧ (∀ i : Nat, i < 5 →
      (calculateVirtues s (.int r)).getD i ("", false)
        = ("dot" ++ toString (s + i), decide ((i : Int) < min r 5)))
  ∧ (calculateVirtues s (.int r)).countP Prod.snd = (min (max r 0) 5).toNat
  ∧ (∀ i j : Nat, i ≤ j → j < 5 →
      ((calculateVirtues s (.int r)).getD j ("", false)).2 = true →
      ((calculateVirtues s (.int r)).getD i ("", false)).2 = true)
  ∧ (∀ v : Value, (calculateVirtues s v).map Prod.fst
      = (List.range 5).map (fun i => "dot" ++ toString (s + i)))
  ∧ (∀ v : Value, pyInt v = Option.none →
      calculateVirtues s v = calculateVirtues s (.int 1)) := by
  refine ⟨by simp [calculateVirtues], ?_, virt_countP r s, ?_,
    calculateVirtues_keys s, ?_⟩
  · intro i hi
    exact virt_getD r s hi
  · intro i j hij hj hact
    rw [virt_getD r s hj] at hact
    rw [virt_getD r s (lt_of_le_of_lt hij hj)]
    simp at hact ⊢
    omega
  · intro v h
    unfold calculateVirtues
    rw [h]
    rfl

/-- Witness for C6 at `r = 7`, `s = 409`: all five fields of the block are
active and the block has no sixth (suffix) field. -/
theorem c6_virtue_block_contract_witness :
    (calculateVirtues 409 (Value.int 7)).countP Prod.snd = 5
  ∧ (calculateVirtues 409 (Value.int 7)).getD 4 ("", false) = ("dot413", true) :=
  ⟨((c6_virtue_block_contract 7 409).2.2.1).trans (by decide),
   ((c6_virtue_block_contract 7 409).2.1 4 (by omega)).trans (by decide)⟩

/-- C7: the tracker renderer over 10 slots emits fields `prefix+i` for
`i = 1..10` (modelled with `i = j+1`, `j < 10`), field `i` active iff
`i ≤ r`; concretely `humanity=7` activates `hdot1..hdot7` and leaves
`hdot8..hdot10` off, and `humanity=12` yields exactly 10 active fields. -/
theorem c7_tracker_contract (pfx : String) (r : Int) :
    (calculateTracker pfx (.int r) 10).length = 10
  ∧ (∀ j : Nat, j < 10 →
      (calculateTracker pfx (.int r) 10).getD j ("", false)
        = (pfx ++ toString (j + 1), decide (((j : Int) + 1) ≤ r)))
  ∧ calculateTracker "hdot" (.int 7) 10
      = [("hdot1", true), ("hdot2", true), ("hdot3", true), ("hdot4", true),
         ("hdot5", true), ("hdot6", true), ("hdot7", true), ("hdot8", false),
         ("hdot9", false), ("hdot10", false)]
  ∧ (calculateTracker "hdot" (.int 12) 10).countP Prod.snd = 10 := by
  refine ⟨by simp [calculateTracker], ?_, by decide, by decide⟩
  intro j hj
  exact tracker_getD pfx r 10 hj

/-- Witness for C7 at `r = 7`, prefix `hdot`: slot 8 is `hdot8`,
inactive. -/
theorem c7_tracker_contract_witness :
    (calculateTracker "hdot" (Value.int 7) 10).getD 7 ("", false)
      = ("hdot8", false) :=
  ((c7_tracker_contract "hdot" 7).2.1 7 (by omega)).trans (by decide)

/-- C3: sorting is descending by rating and stable (equal ratings keep
insertion order), `main = take 6` has at most 6 entries, `main ++ overflow`
is the full sorted permutation of the input; on the 7-discipline example
the six highest-rated (ties by input order) fill the main slots and exactly
one discipline line appears in the overflow text section. -/
theorem c3_rank_and_split (traits : List (String × Int)) :
    ((sortedDesc traits).take 6).length ≤ 6
  ∧ (sortedDesc traits).take 6 ++ (sortedDesc traits).drop 6 = sortedDesc traits
  ∧ List.Perm (sortedDesc traits) traits
  ∧ (sortedDesc traits).Pairwise (fun a b => b.2 ≤ a.2)
  ∧ (∀ r : Int, (sortedDesc traits).filter (fun q => decide (q.2 = r))
      = traits.filter (fun q => decide (q.2 = r)))
  ∧ (sortedDesc demoDisciplines).take 6
      = [("potence", 3), ("celerity", 2), ("fortitude", 1), ("obfuscate", 1),
         ("dominate", 1), ("auspex", 1)]
  ∧ (sortedDesc demoDisciplines).drop 6 = [("thaumaturgy", 1)]
  ∧ otherLines ((sortedDesc demoDisciplines).drop 6) []
      = ["OTHER TRAITS", "", "--- Additional Disciplines ---",
         "Thaumaturgy: 1", ""] := by
  refine ⟨?_, List.take_append_drop 6 _, sortedDesc_perm traits,
    sortedDesc_pairwise traits, sortedDesc_filter traits,
    by decide, by decide, ?_⟩
  · rw [List.length_take]
    exact min_le_left _ _
  · rfl

/-- C4: overflow text lines are assigned to sequential `misc1..misc13`
fields, never more than 13, lines beyond the shared 13-line budget are
dropped; sections sit under their category heading and each overflow entry
is formatted `"<Title Case Name>: <rating>"` with underscores turned into
spaces. -/
theorem c4_overflow_text_budget (od ob : List (String × Int))
    (lines : List String) :
    (miscFields lines).length = min lines.length 13
  ∧ (miscFields lines).length ≤ 13
  ∧ miscFields lines
      = ((lines.take 13).enum).map
          (fun q => ("misc" ++ toString (q.1 + 1), q.2))
  ∧ (od ≠ [] → otherLines od ob
      = ["OTHER TRAITS", ""]
        ++ ("--- Additional Disciplines ---" :: (od.map formatLine ++ [""]))
        ++ (if ob.isEmpty then []
            else "--- Additional Backgrounds ---" :: (ob.map formatLine ++ [""])))
  ∧ (∀ (nm : String) (v : Int),
      formatLine (nm, v) = titleSpaced nm ++ ": " ++ toString v)
  ∧ titleSpaced "animal_ken" = "Animal Ken" := by
  have hlen : (miscFields lines).length = min lines.length 13 := by
    rw [miscFields_eq, List.length_map, List.enum_length, List.length_take]
    omega
  refine ⟨hlen, by omega, miscFields_eq lines, ?_, fun nm v => rfl, by decide⟩
  intro hod
  have h : od.isEmpty = false := by
    simpa using hod
  simp [otherLines, h]

/-- Witness for C4: the one-discipline-overflow example produces the
heading and the formatted line, and a 20-line overflow list is truncated
to 13 misc fields. -/
theorem c4_overflow_text_budget_witness :
    otherLines [("thaumaturgy", 1)] []
      = ["OTHER TRAITS", ""]
        ++ ("--- Additional Disciplines ---"
            :: ([("thaumaturgy", 1)].map formatLine ++ [""]))
        ++ []
  ∧ (miscFields (List.replicate 20 "x")).length = 13 :=
  ⟨by
    have h := (c4_overflow_text_budget [("thaumaturgy", 1)] []
      []).2.2.2.1 (by decide)
    simpa using h,
   by
    have h := (c4_overflow_text_budget [] [] (List.replicate 20 "x")).1
    simpa using h⟩

/-- C5, counterexample: through the real pipeline a request without clan
arrives as a present `clan=None` (`models.py` declares
`clan: Optional[ReferenceData] = None` and `main.py` passes
`character.model_dump()`), so the assembler's else branch computes
`str(None)` and the `Clan` text field is the literal string `"None"` — not
the claimed empty string.  The `weakness` field does resolve to `""`. -/
theorem c5_reference_resolution_counterexample :
    (textMapping { clan := validatedClan Option.none }).lookup "Clan"
      = some "None"
  ∧ (textMapping { clan := validatedClan Option.none }).lookup "Clan"
      ≠ some ""
  ∧ (textMapping { clan := validatedClan Option.none }).lookup "weakness"
      = some "" :=
  ⟨by decide, by decide, by decide⟩

/-- C5, amended: resolution never raises; a structured reference resolves
to its `name` (empty string if absent), a plain string is returned
unchanged, and a key genuinely absent from the dict resolves to the empty
string — but a reference key present with value `None`, which is what
`model_dump` produces for a request that omits the field, resolves the
name text to the literal string `"None"` (`str(None)`), while the clan
`weakness` field still resolves to the empty string. -/
theorem c5_reference_resolution_amended (f : RefField) (nm w : Option String)
    (s : String) (rec : Record) :
    (f = .ref nm w → resolveName f = nm.getD "" ∧ resolveWeakness f = w.getD "")
  ∧ (f = .str s → resolveName f = s)
  ∧ resolveName .absent = ""
  ∧ resolveWeakness .absent = ""
  ∧ resolveName .none = "None"
  ∧ resolveWeakness .none = ""
  ∧ (rec.clan = .absent →
      (textMapping rec).lookup "Clan" = some ""
      ∧ (textMapping rec).lookup "weakness" = some "")
  ∧ (rec.clan = .none →
      (textMapping rec).lookup "Clan" = some "None"
      ∧ (textMapping rec).lookup "weakness" = some "") := by
  refine ⟨?_, ?_, rfl, rfl, rfl, rfl, ?_, ?_⟩
  · rintro rfl
    exact ⟨rfl, rfl⟩
  · rintro rfl
    rfl
  · intro h
    constructor <;>
      simp [textMapping, List.lookup, h, resolveName, resolveWeakness]
  · intro h
    constructor <;>
      simp [textMapping, List.lookup, h, resolveName, resolveWeakness]

/-- Witness for C5's amended statement: a structured `Brujah` clan resolves
to its name; a record whose clan key holds `None` yields `"None"` in the
`Clan` field; a record with the clan key absent yields `""` in the
`weakness` field. -/
theorem c5_reference_resolution_amended_witness :
    resolveName (RefField.ref (some "Brujah") (some "Weak")) = "Brujah"
  ∧ (textMapping { clan := RefField.none }).lookup "Clan" = some "None"
  ∧ (textMapping { clan := RefField.absent }).lookup "weakness" = some "" :=
  ⟨((c5_reference_resolution_amended
      (RefField.ref (some "Brujah") (some "Weak"))
      (some "Brujah") (some "Weak") "" {}).1 rfl).1,
   ((c5_reference_resolution_amended RefField.none Option.none Option.none ""
      { clan := RefField.none }).2.2.2.2.2.2.2 rfl).1,
   ((c5_reference_resolution_amended RefField.absent Option.none Option.none ""
      { clan := RefField.absent }).2.2.2.2.2.2.1 rfl).2⟩

/-- C8: for every character record the assembled field-write list has no
duplicate keys — the key sets of the assembler's sub-mappings (misc
overflow fields, text fields, attribute blocks at offset 1, ability blocks
at 73, discipline labels and blocks at 313, background labels and blocks
at 361, virtue blocks at 409/414/419, `hdot` and `willdot` trackers) are
pairwise disjoint, so no later write overwrites an earlier step's key. -/
theorem c8_field_keys_disjoint (rec : Record) :
    ((fieldMap rec).map Prod.fst).Nodup
  ∧ (fieldSegKeys rec).Pairwise List.Disjoint := by
  have hn : ((fieldMap rec).map Prod.fst).Nodup := by
    rw [fieldMap_keys_param]
    exact List.Nodup.sublist
      (keysParam_sublist _ _ _ (min_le_left _ _) (min_le_left _ _))
      keysMax_nodup
  refine ⟨hn, ?_⟩
  have hf := fieldMap_keys_flatten rec
  exact (List.nodup_flatten.mp (hf ▸ hn)).2

/-- C9, counterexample: a request whose `name` field is absent gets the
model default `"Unknown Kindred"`, so the download filename is
`Unknown_Kindred_Sheet.pdf` — not the claimed `Character_Sheet.pdf`. -/
theorem c9_filename_counterexample :
    requestFilename Option.none = "Unknown_Kindred_Sheet.pdf"
  ∧ requestFilename Option.none ≠ "Character_Sheet.pdf" :=
  ⟨rfl, by decide⟩

/-- C9, amended: the filename is the name with spaces replaced by
underscores plus `_Sheet.pdf`; the `Character_Sheet.pdf` fallback fires
exactly when the validated name is empty, while an absent request name
takes the model default `"Unknown Kindred"` and so yields
`Unknown_Kindred_Sheet.pdf`. -/
theorem c9_filename_amended (nm : String) (o : Option String) :
    (nm ≠ "" → filenameOf nm
      = String.mk (nm.data.map (fun c => if c = ' ' then '_' else c))
          ++ "_Sheet.pdf")
  ∧ filenameOf "" = "Character_Sheet.pdf"
  ∧ requestFilename o = filenameOf (o.getD "Unknown Kindred")
  ∧ requestFilename (some "") = "Character_Sheet.pdf"
  ∧ requestFilename Option.none = "Unknown_Kindred_Sheet.pdf" := by
  refine ⟨?_, rfl, rfl, rfl, rfl⟩
  intro h
  unfold filenameOf
  rw [if_pos h]

/-- Witness for C9's amended statement at the name `"Theo Bell"`. -/
theorem c9_filename_amended_witness :
    filenameOf "Theo Bell" = "Theo_Bell_Sheet.pdf" :=
  ((c9_filename_amended "Theo Bell" Option.none).1 (by decide)).trans
    (by decide)

theorem orderedDots_congr (m1 m2 : List (String × Value)) (d : Value)
    (base : Nat) :
    ∀ (order : List String) (i : Nat),
    (∀ k ∈ order, m1.lookup k = m2.lookup k) →
    orderedDots m1 d base order i = orderedDots m2 d base order i
  | [], _, _ => rfl
  | nm :: rest, i, h => by
    rw [orderedDots, orderedDots, h nm (List.mem_cons_self nm rest),
      orderedDots_congr m1 m2 d base rest (i + 1)
        (fun k hk => h k (List.mem_cons_of_mem nm hk))]

/-- C10: attribute or ability entries whose names are outside the
canonical 9-attribute / 30-ability lists have no effect: replacing the two
trait maps by any maps with the same lookups on the canonical names leaves
the assembled FieldMap unchanged. -/
theorem c10_noncanonical_traits_ignored (r1 : Record)
    (a2 b2 : List (String × Value))
    (hattr : ∀ k ∈ attrOrder, r1.attributes.lookup k = a2.lookup k)
    (habil : ∀ k ∈ abilityOrder, r1.abilities.lookup k = b2.lookup k) :
    fieldMap r1 = fieldMap { r1 with attributes := a2, abilities := b2 } := by
  simp only [fieldMap]
  rw [orderedDots_congr r1.attributes a2 (.int 1) 1 attrOrder 0 hattr,
    orderedDots_congr r1.abilities b2 (.int 0) 73 abilityOrder 0 habil]
  rfl

/-- Witness for C10: adding a non-canonical attribute `"garbage"` and a
non-canonical ability `"nonsense"` leaves the FieldMap unchanged. -/
theorem c10_noncanonical_traits_ignored_witness :
    fieldMap { attributes := [("strength", Value.int 3)] }
      = fieldMap { attributes := [("strength", Value.int 3),
                                  ("garbage", Value.int 5)],
                   abilities := [("nonsense", Value.str "x")] } :=
  c10_noncanonical_traits_ignored { attributes := [("strength", Value.int 3)] }
    [("strength", Value.int 3), ("garbage", Value.int 5)]
    [("nonsense", Value.str "x")] (by decide) (by decide)

end Scribe
